import Mathlib

/-!
# bbatt: a client for the Attribute Protocol (ATT) over an L2CAP socket

A shallow embedding of `bbatt.cpp`.

* Bytes, handles and lengths are natural numbers; C `int` values are integers.
* The socket is an explicit environment `Env`: it scripts what the transport
  answers to successive `send` and `recv` calls and logs every call made.
* A local object without an initialiser starts with the indeterminate bytes
  `Env.stack`.
* `memcpy` is bounds checked: a copy that would leave the source or the
  destination object makes the enclosing function return `none`.
-/

namespace Bbatt

/-! ## Constants -/

/-- Modelled from the spec: `BT_ATT_DEFAULT_LE_MTU` comes from a header that is
not part of the sources; the default MTU is the fixed constant 23. -/
def BT_ATT_DEFAULT_LE_MTU : Nat := 23

/-- Modelled from the spec: opcode of the Error Response PDU (standard ATT
opcode space, declared in a header that is not part of the sources). -/
def BT_ATT_OP_ERROR_RSP : Nat := 0x01

/-- Modelled from the spec: opcode of the Read Request PDU (standard ATT
opcode space, declared in a header that is not part of the sources). -/
def BT_ATT_OP_READ_REQ : Nat := 0x0A

/-- Modelled from the spec: opcode of the Read Response PDU (standard ATT
opcode space, declared in a header that is not part of the sources). -/
def BT_ATT_OP_READ_RSP : Nat := 0x0B

/-- Modelled from the spec: opcode of the Write Request PDU (standard ATT
opcode space, declared in a header that is not part of the sources). -/
def BT_ATT_OP_WRITE_REQ : Nat := 0x12

/-- Modelled from the spec: opcode of the Write Response PDU (standard ATT
opcode space, declared in a header that is not part of the sources). -/
def BT_ATT_OP_WRITE_RSP : Nat := 0x13

/-- Modelled from the spec: opcode of the Handle Value Notification PDU
(standard ATT opcode space, declared in a header that is not part of the
sources). -/
def BT_ATT_OP_HANDLE_VAL_NOT : Nat := 0x1B

/-- Modelled from the spec: opcode of the Write Command PDU (standard ATT
opcode space, declared in a header that is not part of the sources). -/
def BT_ATT_OP_WRITE_CMD : Nat := 0x52

/-- Modelled from the spec: `sizeof(struct bt_att_pdu_error_rsp)`; the struct is
declared in a header that is not part of the sources, and the Error Response
has a fixed 4 bytes after the opcode (failed opcode 1, handle 2, code 1). -/
def sizeof_bt_att_pdu_error_rsp : Nat := 4

/-- The value of `#define DEBUG 0`. -/
def DEBUG : Nat := 0

def ATT_ECODE_INVALID_HANDLE : Nat := 0x01
def ATT_ECODE_READ_NOT_PERM : Nat := 0x02
def ATT_ECODE_WRITE_NOT_PERM : Nat := 0x03
def ATT_ECODE_INVALID_PDU : Nat := 0x04
def ATT_ECODE_AUTHENTICATION : Nat := 0x05
def ATT_ECODE_REQ_NOT_SUPP : Nat := 0x06
def ATT_ECODE_INVALID_OFFSET : Nat := 0x07
def ATT_ECODE_AUTHORIZATION : Nat := 0x08
def ATT_ECODE_PREP_QUEUE_FULL : Nat := 0x09
def ATT_ECODE_ATTR_NOT_FOUND : Nat := 0x0A
def ATT_ECODE_ATTR_NOT_LONG : Nat := 0x0B
def ATT_ECODE_INSUFF_ENCR_KEY_SIZE : Nat := 0x0C
def ATT_ECODE_INVAL_ATTR_VALUE_LEN : Nat := 0x0D
def ATT_ECODE_UNLIKELY : Nat := 0x0E
def ATT_ECODE_INSUFF_ENC : Nat := 0x0F
def ATT_ECODE_UNSUPP_GRP_TYPE : Nat := 0x10
def ATT_ECODE_INSUFF_RESOURCES : Nat := 0x11
def ATT_ECODE_IO : Nat := 0x80
def ATT_ECODE_TIMEOUT : Nat := 0x81
def ATT_ECODE_ABORTED : Nat := 0x82

/-! ## Error code registry -/

/-- The function `att_ecode2str`: a `switch` over the `ATT_ECODE_*` constants
with a `default` label. -/
def att_ecode2str (status : Nat) : String :=
  if status = ATT_ECODE_INVALID_HANDLE then "Invalid handle"
  else if status = ATT_ECODE_READ_NOT_PERM then "Attribute can't be read"
  else if status = ATT_ECODE_WRITE_NOT_PERM then "Attribute can't be written"
  else if status = ATT_ECODE_INVALID_PDU then "Attribute PDU was invalid"
  else if status = ATT_ECODE_AUTHENTICATION then
    "Attribute requires authentication before read/write"
  else if status = ATT_ECODE_REQ_NOT_SUPP then
    "Server doesn't support the request received"
  else if status = ATT_ECODE_INVALID_OFFSET then "Offset past the end of the attribute"
  else if status = ATT_ECODE_AUTHORIZATION then
    "Attribute requires authorization before read/write"
  else if status = ATT_ECODE_PREP_QUEUE_FULL then "Too many prepare writes have been queued"
  else if status = ATT_ECODE_ATTR_NOT_FOUND then "No attribute found within the given range"
  else if status = ATT_ECODE_ATTR_NOT_LONG then
    "Attribute can't be read/written using Read Blob Req"
  else if status = ATT_ECODE_INSUFF_ENCR_KEY_SIZE then "Encryption Key Size is insufficient"
  else if status = ATT_ECODE_INVAL_ATTR_VALUE_LEN then "Attribute value length is invalid"
  else if status = ATT_ECODE_UNLIKELY then
    "Request attribute has encountered an unlikely error"
  else if status = ATT_ECODE_INSUFF_ENC then "Encryption required before read/write"
  else if status = ATT_ECODE_UNSUPP_GRP_TYPE then
    "Attribute type is not a supported grouping attribute"
  else if status = ATT_ECODE_INSUFF_RESOURCES then
    "Insufficient Resources to complete the request"
  else if status = ATT_ECODE_IO then "Internal application error: I/O"
  else if status = ATT_ECODE_TIMEOUT then "A timeout occured"
  else if status = ATT_ECODE_ABORTED then "The operation was aborted"
  else "Unexpected error code"

/-! ## Environment: socket, stack and diagnostics -/

/-- One call on the socket, as logged in `Env.trace`. -/
inductive Event where
  | send (bytes : List Nat)
  | recv (size : Nat)
  deriving DecidableEq, Repr

/-- What the transport answers to one `recv` call: a failure, for which `recv`
returns the negative number `-(n+1)`, or a datagram. -/
inductive Inbound where
  | fail (n : Nat)
  | data (bytes : List Nat)
  deriving DecidableEq, Repr

/-- A line that `debug_print` would write to the standard error stream. -/
inductive DebugMsg where
  | attError (opcode handle : Nat) (description : String)
  | unexpectedOpcode (expected received : Nat)
  | overflow
  deriving DecidableEq, Repr

/-- The world around one call.
* `bigEndian`: the byte order of the host.
* `stack`: the indeterminate bytes a local object without initialiser holds.
* `sendResults`: the values successive `send` calls return.
* `inbound`: what successive `recv` calls deliver.
* `trace`: the socket calls made so far, oldest first.
* `stderr`: the debug lines written so far. -/
structure Env where
  bigEndian : Bool
  stack : List Nat
  sendResults : List Int
  inbound : List Inbound
  trace : List Event
  stderr : List DebugMsg
  deriving DecidableEq, Repr

/-- The system call `send(fd, pkt, size, 0)`: the first `size` bytes of the
object are handed to the transport, whose scripted answer is returned (`-1`
when the script is exhausted). -/
def send (env : Env) (pkt : List Nat) (size : Nat) : Int × Env :=
  let env1 := { env with trace := env.trace ++ [Event.send (pkt.take size)] }
  match env.sendResults with
  | [] => (-1, env1)
  | r :: rs => (r, { env1 with sendResults := rs })

/-- The system call `recv(fd, rpkt, size, 0)` on a sequenced-packet socket: at
most `size` bytes of the next datagram overwrite the start of the object and
their count is returned; a failure returns a negative number and leaves the
object as it was (`-1` when the script is exhausted). -/
def recv (env : Env) (rpkt : List Nat) (size : Nat) : Int × List Nat × Env :=
  let env1 := { env with trace := env.trace ++ [Event.recv size] }
  match env.inbound with
  | [] => (-1, rpkt, env1)
  | Inbound.fail n :: more => (Int.negSucc n, rpkt, { env1 with inbound := more })
  | Inbound.data d :: more =>
      let got := d.take size
      (got.length, got ++ rpkt.drop got.length, { env1 with inbound := more })

/-- The macro `debug_print`: `if (DEBUG) fprintf(stderr, ...)`. -/
def debug_print (env : Env) (msg : DebugMsg) : Env :=
  if DEBUG ≠ 0 then { env with stderr := env.stderr ++ [msg] } else env

/-- The first `n` indeterminate bytes of a local object without initialiser. -/
def uninit (stack : List Nat) (n : Nat) : List Nat :=
  (stack ++ List.replicate n 0).take n

/-! ## Byte order and memory -/

/-- Swap the two bytes of a 16-bit value. -/
def bswap_16 (x : Nat) : Nat := (x % 256) * 256 + x / 256 % 256

/-- Modelled from the spec: the macro `htobs` of the Bluetooth headers, which
are not part of the sources: host order to the least-significant-byte-first
order of the wire, the identity on a little-endian host and a byte swap on a
big-endian one. -/
def htobs (bigEndian : Bool) (x : Nat) : Nat := if bigEndian then bswap_16 x else x

/-- Modelled from the spec: the macro `btohs` of the Bluetooth headers, which
are not part of the sources: the same conversion as `htobs`. -/
def btohs (bigEndian : Bool) (x : Nat) : Nat := htobs bigEndian x

/-- The two bytes of a packed `uint16_t` member holding `x`, in memory order. -/
def store_u16 (bigEndian : Bool) (x : Nat) : List Nat :=
  if bigEndian then [x / 256 % 256, x % 256] else [x % 256, x / 256 % 256]

/-- The value of a packed `uint16_t` member whose bytes are `b0`, `b1` in
memory order. -/
def load_u16 (bigEndian : Bool) (b0 b1 : Nat) : Nat :=
  if bigEndian then b0 * 256 + b1 else b0 + b1 * 256

/-- Conversion of an `int` to `size_t` (64 bits). -/
def size_t (n : Int) : Nat := (n % 2 ^ 64).toNat

/-- The call `memcpy(dst, src, n)`: the first `n` bytes of `dst` become the
first `n` bytes of `src`; `none` when `n` exceeds either object. -/
def memcpy (dst src : List Nat) (n : Nat) : Option (List Nat) :=
  if n ≤ src.length ∧ n ≤ dst.length then some (src.take n ++ dst.drop n) else none

/-- The fields of `struct bt_att_pdu_error_rsp`. -/
structure ErrorRsp where
  opcode : Nat
  handle : Nat
  ecode : Nat
  deriving DecidableEq, Repr

/-- Reading memory at `p` through a `bt_att_pdu_error_rsp *`: `opcode` at
offset 0, `handle` at offsets 1 and 2 (host order), `ecode` at offset 3. -/
def bt_att_pdu_error_rsp (bigEndian : Bool) (p : List Nat) : ErrorRsp :=
  { opcode := p.getD 0 0
    handle := load_u16 bigEndian (p.getD 1 0) (p.getD 2 0)
    ecode := p.getD 3 0 }

/-! ## The transactions -/

/-- What `att_read` leaves behind: the returned `int`, the caller's buffer and
the environment. -/
structure ReadResult where
  ret : Int
  buf : List Nat
  env : Env
  deriving DecidableEq, Repr

/-- What `att_write` and `att_wrreq` leave behind. -/
structure WriteResult where
  ret : Int
  env : Env
  deriving DecidableEq, Repr

/-- What `att_read_not` leaves behind: the returned `int`, the caller's handle
variable, the caller's buffer and the environment. -/
structure NotResult where
  ret : Int
  handle : Nat
  buf : List Nat
  env : Env
  deriving DecidableEq, Repr

/-- The function `att_read`. `buf` is the caller's buffer object and `len` the
capacity the caller declares for it. -/
def att_read (env : Env) (handle : Nat) (buf : List Nat) (len : Int) : Option ReadResult :=
  let pkt := BT_ATT_OP_READ_REQ :: store_u16 env.bigEndian (htobs env.bigEndian handle)
  let (result, env) := send env pkt (1 + 2)
  if result < 0 then some ⟨result, buf, env⟩
  else
    let rpkt0 := List.replicate (1 + BT_ATT_DEFAULT_LE_MTU) 0
    let (result, rpkt, env) := recv env rpkt0 (1 + BT_ATT_DEFAULT_LE_MTU)
    let rpkt_opcode := rpkt.getD 0 0
    let rpkt_buf := rpkt.drop 1
    if result < 0 then some ⟨result, buf, env⟩
    else if rpkt_opcode = BT_ATT_OP_ERROR_RSP
        ∧ size_t result = 1 + sizeof_bt_att_pdu_error_rsp then
      let err := bt_att_pdu_error_rsp env.bigEndian rpkt_buf
      some ⟨-2, buf, debug_print env
        (DebugMsg.attError err.opcode (btohs env.bigEndian err.handle)
          (att_ecode2str err.ecode))⟩
    else if rpkt_opcode ≠ BT_ATT_OP_READ_RSP then
      some ⟨-2, buf, debug_print env
        (DebugMsg.unexpectedOpcode BT_ATT_OP_READ_RSP rpkt_opcode)⟩
    else if result - 1 > len then
      some ⟨-2, buf, debug_print env DebugMsg.overflow⟩
    else
      let length := result - 1
      match memcpy buf rpkt_buf (size_t length) with
      | none => none
      | some buf1 => some ⟨length, buf1, env⟩

/-- The function `att_write`. `buf` is the caller's value object and `length`
the number of its bytes to write. -/
def att_write (env : Env) (handle : Nat) (buf : List Nat) (length : Nat) :
    Option WriteResult :=
  let maxLength := BT_ATT_DEFAULT_LE_MTU - 1 - 2
  if length > maxLength then some ⟨-1, env⟩
  else
    let sizeof_pkt := 1 + 2 + maxLength
    let pkt0 := uninit env.stack sizeof_pkt
    let size := sizeof_pkt - maxLength + length
    match memcpy (pkt0.drop 3) buf length with
    | none => none
    | some pkt_buf =>
      let pkt := BT_ATT_OP_WRITE_CMD ::
        (store_u16 env.bigEndian (htobs env.bigEndian handle) ++ pkt_buf)
      let (result, env) := send env pkt size
      if result < 0 then some ⟨result, env⟩
      else some ⟨length, env⟩

/-- The function `att_wrreq`. `buf` is the caller's value object and `length`
the number of its bytes to write. -/
def att_wrreq (env : Env) (handle : Nat) (buf : List Nat) (length : Nat) :
    Option WriteResult :=
  let maxLength := BT_ATT_DEFAULT_LE_MTU - 1 - 2
  if length > maxLength then some ⟨-1, env⟩
  else
    let sizeof_pkt := 1 + 2 + maxLength
    let pkt0 := uninit env.stack sizeof_pkt
    let size := sizeof_pkt - maxLength + length
    match memcpy (pkt0.drop 3) buf length with
    | none => none
    | some pkt_buf =>
      let pkt := BT_ATT_OP_WRITE_REQ ::
        (store_u16 env.bigEndian (htobs env.bigEndian handle) ++ pkt_buf)
      let (result, env) := send env pkt size
      if result < 0 then some ⟨result, env⟩
      else
        let rpkt0 := List.replicate (1 + BT_ATT_DEFAULT_LE_MTU) 0
        let (result, rpkt, env) := recv env rpkt0 (1 + BT_ATT_DEFAULT_LE_MTU)
        let rpkt_opcode := rpkt.getD 0 0
        let rpkt_buf := rpkt.drop 1
        if result < 0 then some ⟨result, env⟩
        else if rpkt_opcode = BT_ATT_OP_ERROR_RSP
            ∧ size_t result = 1 + sizeof_bt_att_pdu_error_rsp then
          let err := bt_att_pdu_error_rsp env.bigEndian rpkt_buf
          some ⟨-2, debug_print env
            (DebugMsg.attError err.opcode (btohs env.bigEndian err.handle)
              (att_ecode2str err.ecode))⟩
        else if rpkt_opcode ≠ BT_ATT_OP_WRITE_RSP then
          some ⟨-2, debug_print env
            (DebugMsg.unexpectedOpcode BT_ATT_OP_WRITE_RSP rpkt_opcode)⟩
        else some ⟨length, env⟩

/-- The handle member of the receive object of `att_read_not`, converted as the
function does: the packed `uint16_t` at offsets 1 and 2, through `htobs`. -/
def rpkt_handle (bigEndian : Bool) (rpkt : List Nat) : Nat :=
  htobs bigEndian (load_u16 bigEndian (rpkt.getD 1 0) (rpkt.getD 2 0))

/-- The payload `att_read_not` copies out of its receive object after `result`
received bytes: `result - 3` bytes of the member `buf` at offset 3. -/
def rpkt_payload (rpkt : List Nat) (result : Int) : List Nat :=
  (rpkt.drop 3).take (size_t (result - 3))

/-- The function `att_read_not`. `handle` is the prior value of the caller's
handle variable, `buf` the caller's buffer object and `len` the capacity the
caller declares for it. -/
def att_read_not (env : Env) (handle : Nat) (buf : List Nat) (len : Int) :
    Option NotResult :=
  let sizeof_rpkt := 1 + 2 + BT_ATT_DEFAULT_LE_MTU
  let rpkt0 := uninit env.stack sizeof_rpkt
  let (result, rpkt, env) := recv env rpkt0 sizeof_rpkt
  let rpkt_opcode := rpkt.getD 0 0
  let rpkt_buf := rpkt.drop 3
  if result < 0 then some ⟨result, handle, buf, env⟩
  else if rpkt_opcode = BT_ATT_OP_ERROR_RSP
      ∧ size_t result = 1 + sizeof_bt_att_pdu_error_rsp then
    let err := bt_att_pdu_error_rsp env.bigEndian rpkt_buf
    some ⟨-2, handle, buf, debug_print env
      (DebugMsg.attError err.opcode (btohs env.bigEndian err.handle)
        (att_ecode2str err.ecode))⟩
  else if rpkt_opcode ≠ BT_ATT_OP_HANDLE_VAL_NOT then
    some ⟨-2, handle, buf, debug_print env
      (DebugMsg.unexpectedOpcode BT_ATT_OP_HANDLE_VAL_NOT rpkt_opcode)⟩
  else if result - 3 > len then
    some ⟨-2, handle, buf, debug_print env DebugMsg.overflow⟩
  else
    let length := result - 3
    match memcpy buf rpkt_buf (size_t length) with
    | none => none
    | some buf1 => some ⟨length, rpkt_handle env.bigEndian rpkt, buf1, env⟩

/-! ## Vocabulary for stating properties -/

/-- The PDUs handed to `send` in a trace, oldest first. -/
def sent (t : List Event) : List (List Nat) :=
  t.filterMap fun e => match e with
    | Event.send bytes => some bytes
    | Event.recv _ => none

/-- The buffer sizes of the `recv` calls in a trace, oldest first. -/
def received (t : List Event) : List Nat :=
  t.filterMap fun e => match e with
    | Event.send _ => none
    | Event.recv size => some size

/-- The environment after one `send` of `pdu`. -/
def afterSend (env : Env) (pdu : List Nat) : Env :=
  { env with trace := env.trace ++ [Event.send pdu], sendResults := env.sendResults.tail }

/-- The environment after one `recv` into an object of `size` bytes. -/
def afterRecv (env : Env) (size : Nat) : Env :=
  { env with trace := env.trace ++ [Event.recv size], inbound := env.inbound.tail }

/-- The value the next `recv` into an object of `size` bytes returns. -/
def recvResult (env : Env) (size : Nat) : Int :=
  match env.inbound with
  | [] => -1
  | Inbound.fail n :: _ => Int.negSucc n
  | Inbound.data d :: _ => (d.take size).length

/-- The bytes the next `recv` into an object of `size` bytes stores: the
received PDU. -/
def recvBytes (env : Env) (size : Nat) : List Nat :=
  match env.inbound with
  | Inbound.data d :: _ => d.take size
  | _ => []

/-- The codes named by the `ATT_ECODE_*` constants, in the order of their
definition. -/
def definedCodes : List Nat :=
  [ATT_ECODE_INVALID_HANDLE, ATT_ECODE_READ_NOT_PERM, ATT_ECODE_WRITE_NOT_PERM,
    ATT_ECODE_INVALID_PDU, ATT_ECODE_AUTHENTICATION, ATT_ECODE_REQ_NOT_SUPP,
    ATT_ECODE_INVALID_OFFSET, ATT_ECODE_AUTHORIZATION, ATT_ECODE_PREP_QUEUE_FULL,
    ATT_ECODE_ATTR_NOT_FOUND, ATT_ECODE_ATTR_NOT_LONG, ATT_ECODE_INSUFF_ENCR_KEY_SIZE,
    ATT_ECODE_INVAL_ATTR_VALUE_LEN, ATT_ECODE_UNLIKELY, ATT_ECODE_INSUFF_ENC,
    ATT_ECODE_UNSUPP_GRP_TYPE, ATT_ECODE_INSUFF_RESOURCES, ATT_ECODE_IO, ATT_ECODE_TIMEOUT,
    ATT_ECODE_ABORTED]

/-- The 8-bit codes whose description is not the generic one. -/
def describedCodes : List Nat :=
  (List.range 256).filter fun s => att_ecode2str s != "Unexpected error code"

/-- A little-endian host with a clean stack whose next `send` reports 3 bytes
sent and whose `recv` calls deliver `inbound`. -/
def demoEnv (inbound : List Inbound) : Env :=
  { bigEndian := false, stack := [], sendResults := [3], inbound := inbound,
    trace := [], stderr := [] }

/-- An environment that delivers the Error Response `01 0A 10 00 code`: failed
opcode Read Request, handle `0x0010`. -/
def errorRspEnv (code : Nat) : Env :=
  demoEnv [Inbound.data [0x01, 0x0A, 0x10, 0x00, code]]

/-- The environment `demoEnv inbound` on a stack that holds the stale bytes
`stack`. -/
def staleEnv (stack : List Nat) (inbound : List Inbound) : Env :=
  { demoEnv inbound with stack := stack }

/-- The fields behind the local `err` of `att_read` once `recv` has run in
`env`: the receive object is read through the struct pointer at its member
`buf`, which lies at offset 1, and the handle goes through `btohs`. -/
def att_read_err (env : Env) : ErrorRsp :=
  let rpkt0 := List.replicate (1 + BT_ATT_DEFAULT_LE_MTU) 0
  let (_, rpkt, env) := recv env rpkt0 (1 + BT_ATT_DEFAULT_LE_MTU)
  let rpkt_buf := rpkt.drop 1
  let err := bt_att_pdu_error_rsp env.bigEndian rpkt_buf
  { opcode := err.opcode, handle := btohs env.bigEndian err.handle, ecode := err.ecode }

/-- The fields behind the local `err` of `att_wrreq` once `recv` has run in
`env`: the receive object has the layout of the one of `att_read`. -/
def att_wrreq_err (env : Env) : ErrorRsp :=
  let rpkt0 := List.replicate (1 + BT_ATT_DEFAULT_LE_MTU) 0
  let (_, rpkt, env) := recv env rpkt0 (1 + BT_ATT_DEFAULT_LE_MTU)
  let rpkt_buf := rpkt.drop 1
  let err := bt_att_pdu_error_rsp env.bigEndian rpkt_buf
  { opcode := err.opcode, handle := btohs env.bigEndian err.handle, ecode := err.ecode }

/-- The fields behind the local `err` of `att_read_not` once `recv` has run in
`env`: the receive object is read through the struct pointer at its member
`buf`, which lies at offset 3, after the members `opcode` and `handle`. -/
def att_read_not_err (env : Env) : ErrorRsp :=
  let sizeof_rpkt := 1 + 2 + BT_ATT_DEFAULT_LE_MTU
  let rpkt0 := uninit env.stack sizeof_rpkt
  let (_, rpkt, env) := recv env rpkt0 sizeof_rpkt
  let rpkt_buf := rpkt.drop 3
  let err := bt_att_pdu_error_rsp env.bigEndian rpkt_buf
  { opcode := err.opcode, handle := btohs env.bigEndian err.handle, ecode := err.ecode }

/-- The value the next `send` returns. -/
def sendResult (env : Env) : Int := env.sendResults.headD (-1)

/-! ## Auxiliary lemmas -/

/-- Splitting a 16-bit value built from two bytes gives the bytes back. -/
theorem swap_bytes (a b : Nat) (ha : a < 256) (hb : b < 256) :
    (a * 256 + b) / 256 % 256 = a ∧ (a * 256 + b) % 256 = b := by omega

/-- On a host of either byte order the member `handle = htobs(h)` lies in memory least-
significant byte first. -/
theorem store_u16_htobs (be : Bool) (h : Nat) :
    store_u16 be (htobs be h) = [h % 256, h / 256 % 256] := by
  have hs := swap_bytes (h % 256) (h / 256 % 256) (Nat.mod_lt _ (by decide))
    (Nat.mod_lt _ (by decide))
  cases be
  · simp [store_u16, htobs]
  · simp only [store_u16, htobs, bswap_16, if_true]
    rw [hs.1, hs.2]

/-- On a host of either byte order `att_read_not` reads the handle least-significant byte
first. -/
theorem rpkt_handle_cons (be : Bool) (op lo hi : Nat) (rest : List Nat)
    (hlo : lo < 256) (hhi : hi < 256) :
    rpkt_handle be (op :: lo :: hi :: rest) = lo + 256 * hi := by
  cases be <;> simp [rpkt_handle, load_u16, htobs, bswap_16] <;> omega

/-- A non-negative `int` keeps its value as a `size_t`. -/
theorem size_t_natCast (n : Nat) (hn : n < 2 ^ 64) : size_t (n : Int) = n := by
  unfold size_t
  have h : ((n : Int) % 2 ^ 64) = (n : Int) := Int.emod_eq_of_lt (by omega) (by exact_mod_cast hn)
  rw [h]; simp

/-- The payload of a PDU received whole is what follows its 3-byte header. -/
theorem rpkt_payload_cons (op lo hi : Nat) (p : List Nat) (hp : p.length < 2 ^ 63) :
    rpkt_payload (op :: lo :: hi :: p) ((op :: lo :: hi :: p).length : Nat) = p := by
  have h : (((op :: lo :: hi :: p).length : Nat) : Int) - 3 = (p.length : Nat) := by
    simp only [List.length_cons]; push_cast; omega
  unfold rpkt_payload
  rw [h, size_t_natCast _ (by omega)]
  simp

/-- A local object has its declared size. -/
theorem uninit_length (stack : List Nat) (n : Nat) : (uninit stack n).length = n := by
  simp [uninit]

/-- The first `3 + len v` bytes of a write packet are its header and the value. -/
theorem take_header (a b c : Nat) (v r : List Nat) :
    List.take (3 + v.length) (a :: b :: c :: (v ++ r)) = a :: b :: c :: v := by
  have h : 3 + v.length = v.length + 1 + 1 + 1 := by omega
  rw [h]
  simp

/-- What `send` returns and does: the scripted result, one more logged call. -/
theorem send_eq (env : Env) (pkt : List Nat) (size : Nat) :
    send env pkt size = (env.sendResults.headD (-1), afterSend env (pkt.take size)) := by
  rcases env with ⟨be, st, sr, ib, tr, se⟩
  cases sr <;> simp [send, afterSend]

/-- The whole behaviour of `att_write` on a value of at most 20 bytes. -/
theorem att_write_run (env : Env) (h : Nat) (v : List Nat) (hv : v.length ≤ 20) :
    att_write env h v v.length =
      some ⟨if env.sendResults.headD (-1) < 0 then env.sendResults.headD (-1) else v.length,
        afterSend env (0x52 :: h % 256 :: h / 256 % 256 :: v)⟩ := by
  have h1 : ¬ v.length > BT_ATT_DEFAULT_LE_MTU - 1 - 2 := by
    simp [BT_ATT_DEFAULT_LE_MTU]; omega
  simp only [att_write, h1, if_false, memcpy, send_eq, store_u16_htobs]
  simp only [uninit_length, BT_ATT_DEFAULT_LE_MTU, BT_ATT_OP_WRITE_CMD, List.length_drop]
  have h2 : v.length ≤ v.length ∧ v.length ≤ 1 + 2 + (23 - 1 - 2) - 3 := by omega
  have h3 : 1 + 2 + (23 - 1 - 2) - (23 - 1 - 2) + v.length = 3 + v.length := by omega
  simp only [h2, and_self, if_true, h3, List.take_length, List.cons_append, List.nil_append,
    take_header]
  split_ifs <;> rfl

/-- What `recv` returns and does: result, bytes stored over the start of the object, one
more logged call. -/
theorem recv_eq (env : Env) (rpkt : List Nat) (size : Nat) :
    recv env rpkt size =
      (recvResult env size,
        recvBytes env size ++ rpkt.drop (recvBytes env size).length,
        afterRecv env size) := by
  rcases env with ⟨be, st, sr, ib, tr, se⟩
  rcases ib with _ | ⟨ev, more⟩
  · simp [recv, recvResult, recvBytes, afterRecv]
  · cases ev <;> simp [recv, recvResult, recvBytes, afterRecv]

/-- A `send` does not change what the next `recv` returns. -/
theorem recvResult_afterSend (env : Env) (pdu : List Nat) (size : Nat) :
    recvResult (afterSend env pdu) size = recvResult env size := rfl

/-- A `send` does not change what the next `recv` stores. -/
theorem recvBytes_afterSend (env : Env) (pdu : List Nat) (size : Nat) :
    recvBytes (afterSend env pdu) size = recvBytes env size := rfl

/-- A `recv` never stores more bytes than the object holds. -/
theorem recvBytes_length_le (env : Env) (size : Nat) : (recvBytes env size).length ≤ size := by
  unfold recvBytes
  split <;> simp

/-- A non-negative `recv` result is the number of bytes stored. -/
theorem recvResult_nonneg (env : Env) (size : Nat) (h : ¬ recvResult env size < 0) :
    recvResult env size = ((recvBytes env size).length : Nat) := by
  rcases env with ⟨be, st, sr, ib, tr, se⟩
  rcases ib with _ | ⟨ev, more⟩
  · simp [recvResult] at h
  · cases ev with
    | fail n => exact absurd (Int.negSucc_lt_zero n) h
    | data d => rfl

/-- The same, after conversion to `size_t`. -/
theorem size_t_recvResult (env : Env) (size : Nat) (hsize : size < 2 ^ 64)
    (h : ¬ recvResult env size < 0) :
    size_t (recvResult env size) = (recvBytes env size).length := by
  rw [recvResult_nonneg env size h]
  exact size_t_natCast _ (lt_of_le_of_lt (recvBytes_length_le env size) hsize)

/-- The opcode member of a zero-initialised receive object after `recv`: the first
received byte, or 0 when nothing was received. -/
theorem opcode_zero_init (got : List Nat) :
    (got ++ List.drop got.length (List.replicate 24 0)).getD 0 0 = got.headD 0 := by
  cases got <;> simp [List.replicate]

/-- With `DEBUG` defined as 0 `debug_print` prints nothing. -/
theorem debug_print_eq (env : Env) (msg : DebugMsg) : debug_print env msg = env := by
  simp [debug_print, DEBUG]

/-- The whole behaviour of `att_wrreq` on a value of at most 20 bytes. -/
theorem att_wrreq_run (env : Env) (h : Nat) (v : List Nat) (hv : v.length ≤ 20) :
    att_wrreq env h v v.length =
      (let env1 := afterSend env (0x12 :: h % 256 :: h / 256 % 256 :: v)
       if env.sendResults.headD (-1) < 0 then some ⟨env.sendResults.headD (-1), env1⟩
       else
         let got := recvBytes env 24
         let env2 := afterRecv env1 24
         if recvResult env 24 < 0 then some ⟨recvResult env 24, env2⟩
         else if got.headD 0 = 0x01 ∧ got.length = 5 then some ⟨-2, env2⟩
         else if got.headD 0 ≠ 0x13 then some ⟨-2, env2⟩
         else some ⟨v.length, env2⟩) := by
  have h1 : ¬ v.length > BT_ATT_DEFAULT_LE_MTU - 1 - 2 := by
    simp [BT_ATT_DEFAULT_LE_MTU]; omega
  simp only [att_wrreq, h1, if_false, memcpy, send_eq, recv_eq, store_u16_htobs, debug_print_eq,
    recvResult_afterSend, recvBytes_afterSend]
  simp only [uninit_length, BT_ATT_DEFAULT_LE_MTU, BT_ATT_OP_WRITE_REQ, List.length_drop]
  have h2 : v.length ≤ v.length ∧ v.length ≤ 1 + 2 + (23 - 1 - 2) - 3 := by omega
  have h3 : 1 + 2 + (23 - 1 - 2) - (23 - 1 - 2) + v.length = 3 + v.length := by omega
  simp only [h2, and_self, if_true, h3, List.take_length, List.cons_append, List.nil_append,
    take_header, show 1 + 23 = 24 from rfl, opcode_zero_init]
  by_cases hs : env.sendResults.headD (-1) < 0
  · simp only [hs, if_true]
  · by_cases hr : recvResult env 24 < 0
    · simp only [hs, hr, if_true, if_false]
    · simp only [hs, hr, if_false, size_t_recvResult env 24 (by norm_num) hr,
        BT_ATT_OP_ERROR_RSP, sizeof_bt_att_pdu_error_rsp, BT_ATT_OP_WRITE_RSP]

/-- The bytes of a non-empty received PDU after its opcode. -/
theorem payload_after_opcode (got z : List Nat) (h : got ≠ []) :
    List.take (got.length - 1) (List.drop 1 (got ++ z)) = got.drop 1 := by
  cases got with
  | nil => exact absurd rfl h
  | cons a t => simp

/-- The conversion of `n - 1` to `size_t` for a positive `n`. -/
theorem size_t_pred (n : Nat) (h1 : 1 ≤ n) (hn : n < 2 ^ 64) :
    size_t ((n : Int) - 1) = n - 1 := by
  have h : (n : Int) - 1 = ((n - 1 : Nat) : Int) := by omega
  rw [h, size_t_natCast _ (by omega)]

/-- The 3 bytes of the read request. -/
theorem take_three (a b c : Nat) : List.take (1 + 2) [a, b, c] = [a, b, c] := rfl

/-- The whole behaviour of `att_read`. -/
theorem att_read_run (env : Env) (h : Nat) (buf : List Nat) (len : Int) :
    att_read env h buf len =
      (let env1 := afterSend env [0x0A, h % 256, h / 256 % 256]
       if env.sendResults.headD (-1) < 0 then some ⟨env.sendResults.headD (-1), buf, env1⟩
       else
         let got := recvBytes env 24
         let env2 := afterRecv env1 24
         if recvResult env 24 < 0 then some ⟨recvResult env 24, buf, env2⟩
         else if got.headD 0 = 0x01 ∧ got.length = 5 then some ⟨-2, buf, env2⟩
         else if got.headD 0 ≠ 0x0B then some ⟨-2, buf, env2⟩
         else if (got.length : Int) - 1 > len then some ⟨-2, buf, env2⟩
         else if got.length - 1 ≤ buf.length then
           some ⟨(got.length : Int) - 1, got.drop 1 ++ buf.drop (got.length - 1), env2⟩
         else none) := by
  simp only [att_read, send_eq, recv_eq, store_u16_htobs, debug_print_eq,
    recvResult_afterSend, recvBytes_afterSend, BT_ATT_DEFAULT_LE_MTU, BT_ATT_OP_READ_REQ,
    show 1 + 23 = 24 from rfl, opcode_zero_init, take_three, List.cons_append, List.nil_append]
  by_cases hs : env.sendResults.headD (-1) < 0
  · rw [if_pos hs, if_pos hs]
  · rw [if_neg hs, if_neg hs]
    by_cases hr : recvResult env 24 < 0
    · rw [if_pos hr, if_pos hr]
    · rw [if_neg hr, if_neg hr]
      simp only [size_t_recvResult env 24 (by norm_num) hr,
        BT_ATT_OP_ERROR_RSP, sizeof_bt_att_pdu_error_rsp, BT_ATT_OP_READ_RSP,
        show 1 + 4 = 5 from rfl]
      have hlen := recvBytes_length_le env 24
      rw [recvResult_nonneg env 24 hr]
      by_cases he : (recvBytes env 24).headD 0 = 1 ∧ (recvBytes env 24).length = 5
      · rw [if_pos he, if_pos he]
      · rw [if_neg he, if_neg he]
        by_cases ho : (recvBytes env 24).headD 0 ≠ 11
        · rw [if_pos ho, if_pos ho]
        · rw [if_neg ho, if_neg ho]
          have hne : recvBytes env 24 ≠ [] := by
            intro hnil
            rw [hnil] at ho
            simp at ho
          have hpos : 1 ≤ (recvBytes env 24).length :=
            Nat.succ_le_of_lt (List.length_pos.mpr hne)
          by_cases hl : ((recvBytes env 24).length : Int) - 1 > len
          · rw [if_pos hl, if_pos hl]
          · rw [if_neg hl, if_neg hl]
            have hsrc : (recvBytes env 24).length - 1 ≤
                (List.drop 1 (recvBytes env 24 ++
                  List.drop (recvBytes env 24).length (List.replicate 24 0))).length := by
              simp only [List.length_drop, List.length_append, List.length_replicate]
              omega
            simp only [memcpy, size_t_pred _ hpos (by omega), payload_after_opcode _ _ hne,
              hsrc, true_and]
            by_cases hb : (recvBytes env 24).length - 1 ≤ buf.length
            · rw [if_pos hb, if_pos hb]
            · rw [if_neg hb, if_neg hb]

/-- The whole behaviour of `att_read_not` up to the final copy, in terms of the receive
object `rpkt` after `recv`. -/
theorem att_read_not_run (env : Env) (handle : Nat) (buf : List Nat) (len : Int) :
    att_read_not env handle buf len =
      (let got := recvBytes env 26
       let rpkt := got ++ (uninit env.stack 26).drop got.length
       let env2 := afterRecv env 26
       if recvResult env 26 < 0 then some ⟨recvResult env 26, handle, buf, env2⟩
       else if rpkt.getD 0 0 = 0x01 ∧ got.length = 5 then some ⟨-2, handle, buf, env2⟩
       else if rpkt.getD 0 0 ≠ 0x1B then some ⟨-2, handle, buf, env2⟩
       else if (got.length : Int) - 3 > len then some ⟨-2, handle, buf, env2⟩
       else
         match memcpy buf (rpkt.drop 3) (size_t ((got.length : Int) - 3)) with
         | none => none
         | some buf1 =>
           some ⟨(got.length : Int) - 3, rpkt_handle env.bigEndian rpkt, buf1, env2⟩) := by
  simp only [att_read_not, recv_eq, debug_print_eq, BT_ATT_DEFAULT_LE_MTU,
    show 1 + 2 + 23 = 26 from rfl]
  by_cases hr : recvResult env 26 < 0
  · rw [if_pos hr, if_pos hr]
  · rw [if_neg hr, if_neg hr]
    simp only [size_t_recvResult env 26 (by norm_num) hr,
      BT_ATT_OP_ERROR_RSP, sizeof_bt_att_pdu_error_rsp, BT_ATT_OP_HANDLE_VAL_NOT,
      show 1 + 4 = 5 from rfl]
    rw [recvResult_nonneg env 26 hr]
    rfl

/-- The bytes stored when the transport delivers the datagram `d`. -/
theorem recvBytes_data (env : Env) (size : Nat) (d : List Nat) (more : List Inbound)
    (h : env.inbound = Inbound.data d :: more) : recvBytes env size = d.take size := by
  simp [recvBytes, h]

/-- The result of `recv` when the transport delivers the datagram `d`. -/
theorem recvResult_data (env : Env) (size : Nat) (d : List Nat) (more : List Inbound)
    (h : env.inbound = Inbound.data d :: more) :
    recvResult env size = ((d.take size).length : Nat) := by
  simp [recvResult, h]

/-- A copy within both objects succeeds. -/
theorem memcpy_ok (dst src : List Nat) (n : Nat) (hs : n ≤ src.length) (hd : n ≤ dst.length) :
    memcpy dst src n = some (src.take n ++ dst.drop n) := by
  simp [memcpy, hs, hd]

/-- A `send` adds its PDU to the sent PDUs. -/
theorem sent_afterSend (env : Env) (pdu : List Nat) :
    sent (afterSend env pdu).trace = sent env.trace ++ [pdu] := by
  simp [sent, afterSend, List.filterMap_append]

/-- A `recv` sends nothing. -/
theorem sent_afterRecv (env : Env) (size : Nat) :
    sent (afterRecv env size).trace = sent env.trace := by
  simp [sent, afterRecv, List.filterMap_append]

/-- A `send` receives nothing. -/
theorem received_afterSend (env : Env) (pdu : List Nat) :
    received (afterSend env pdu).trace = received env.trace := by
  simp [received, afterSend, List.filterMap_append]

/-- A `recv` adds its call to the receive calls. -/
theorem received_afterRecv (env : Env) (size : Nat) :
    received (afterRecv env size).trace = received env.trace ++ [size] := by
  simp [received, afterRecv, List.filterMap_append]

/-- A scripted non-negative `send` result passes the test `result < 0`. -/
theorem headD_cons_nonneg (env : Env) (r : Int) (rs : List Int)
    (hsend : env.sendResults = r :: rs) (hr : 0 ≤ r) : ¬ env.sendResults.headD (-1) < 0 := by
  rw [hsend]; simpa using hr

/-- The `send` result is non-negative exactly when the script holds a non-negative next
result. -/
theorem send_ok_iff (env : Env) :
    ¬ env.sendResults.headD (-1) < 0 ↔ ∃ s rs, env.sendResults = s :: rs ∧ 0 ≤ s := by
  rcases env with ⟨be, st, sr, ib, tr, se⟩
  cases sr with
  | nil => simp
  | cons s rs => simp

/-- The first received byte is the non-zero opcode `op` exactly when the transport
delivers a datagram that starts with `op`. -/
theorem recvBytes_head_iff (env : Env) (size op : Nat) (hop : op ≠ 0) :
    (recvBytes env (size + 1)).headD 0 = op ↔
      ∃ rest more, env.inbound = Inbound.data (op :: rest) :: more := by
  rcases env with ⟨be, st, sr, ib, tr, se⟩
  rcases ib with _ | ⟨ev, more⟩
  · simp [recvBytes]; exact fun h => hop h.symm
  · cases ev with
    | fail n => simp [recvBytes]; exact fun h => hop h.symm
    | data d =>
      cases d with
      | nil => simp [recvBytes]; exact fun h => hop h.symm
      | cons a t => simp [recvBytes]

/-- A failed `recv` stores nothing. -/
theorem recvBytes_of_neg (env : Env) (size : Nat) (h : recvResult env size < 0) :
    recvBytes env size = [] := by
  rcases env with ⟨be, st, sr, ib, tr, se⟩
  rcases ib with _ | ⟨ev, more⟩
  · rfl
  · cases ev with
    | fail n => rfl
    | data d => simp [recvResult] at h; omega

/-- The `ATT_ECODE_*` codes are `01` to `11` and `80`, `81`, `82`. -/
theorem mem_definedCodes_iff (s : Nat) :
    s ∈ definedCodes ↔ (0x01 ≤ s ∧ s ≤ 0x11) ∨ s = 0x80 ∨ s = 0x81 ∨ s = 0x82 := by
  simp only [definedCodes, List.mem_cons, List.mem_singleton, List.not_mem_nil, or_false,
    ATT_ECODE_INVALID_HANDLE, ATT_ECODE_READ_NOT_PERM, ATT_ECODE_WRITE_NOT_PERM,
    ATT_ECODE_INVALID_PDU, ATT_ECODE_AUTHENTICATION, ATT_ECODE_REQ_NOT_SUPP,
    ATT_ECODE_INVALID_OFFSET, ATT_ECODE_AUTHORIZATION, ATT_ECODE_PREP_QUEUE_FULL,
    ATT_ECODE_ATTR_NOT_FOUND, ATT_ECODE_ATTR_NOT_LONG, ATT_ECODE_INSUFF_ENCR_KEY_SIZE,
    ATT_ECODE_INVAL_ATTR_VALUE_LEN, ATT_ECODE_UNLIKELY, ATT_ECODE_INSUFF_ENC,
    ATT_ECODE_UNSUPP_GRP_TYPE, ATT_ECODE_INSUFF_RESOURCES, ATT_ECODE_IO, ATT_ECODE_TIMEOUT,
    ATT_ECODE_ABORTED]
  omega

/-- Every argument that is not an `ATT_ECODE_*` code reaches the `default` label. -/
theorem att_ecode2str_undefined (s : Nat) (hs : s ∉ definedCodes) :
    att_ecode2str s = "Unexpected error code" := by
  simp only [definedCodes, List.mem_cons, List.mem_singleton, not_or, List.not_mem_nil,
    not_false_eq_true, and_true] at hs
  simp only [att_ecode2str, hs, if_false]

/-- No `ATT_ECODE_*` code has the generic description. -/
theorem att_ecode2str_defined :
    ∀ s ∈ definedCodes, att_ecode2str s ≠ "Unexpected error code" := by decide

/-- What the final copy of `att_read_not` writes is `rpkt_payload`. -/
theorem memcpy_rpkt_payload (buf rpkt out : List Nat) (result : Int)
    (h : memcpy buf (rpkt.drop 3) (size_t (result - 3)) = some out) :
    out = rpkt_payload rpkt result ++ buf.drop (size_t (result - 3)) := by
  unfold memcpy at h
  split at h
  · simpa [rpkt_payload] using h.symm
  · exact absurd h (by simp)

/-- A value above 20 bytes makes `att_write` stop before any socket call. -/
theorem att_write_too_long (env : Env) (h : Nat) (buf : List Nat) (length : Nat)
    (hlen : 20 < length) : att_write env h buf length = some ⟨-1, env⟩ := by
  have h1 : length > BT_ATT_DEFAULT_LE_MTU - 1 - 2 := by
    simp [BT_ATT_DEFAULT_LE_MTU]; omega
  simp only [att_write, h1, if_true]

/-- A value above 20 bytes makes `att_wrreq` stop before any socket call. -/
theorem att_wrreq_too_long (env : Env) (h : Nat) (buf : List Nat) (length : Nat)
    (hlen : 20 < length) : att_wrreq env h buf length = some ⟨-1, env⟩ := by
  have h1 : length > BT_ATT_DEFAULT_LE_MTU - 1 - 2 := by
    simp [BT_ATT_DEFAULT_LE_MTU]; omega
  simp only [att_wrreq, h1, if_true]

/-- The high byte of a 16-bit value needs no reduction. -/
theorem high_byte (h : Nat) (hh : h < 65536) : h / 256 % 256 = h / 256 := by omega

/-- The first component of `send` is the scripted result. -/
theorem send_fst (env : Env) (pkt : List Nat) (size : Nat) :
    (send env pkt size).1 = env.sendResults.headD (-1) := by
  rw [send_eq]

/-- The opcode member of the receive object of `att_read_not` after a non-empty PDU
was stored is the first received byte. -/
theorem opcode_of_nonempty (op : Nat) (rest z : List Nat) :
    ((op :: rest) ++ z).getD 0 0 = op := by
  simp

/-- The first received byte is `op` when the PDU starts with it. -/
theorem headD_eq_iff (l : List Nat) (op : Nat) (hop : op ≠ 0) :
    l.headD 0 = op ↔ ∃ rest, l = op :: rest := by
  cases l with
  | nil => simp; exact fun h => hop h.symm
  | cons a t => simp

/-- The first component of `send` is `sendResult`. -/
theorem send_fst_eq (env : Env) (pkt : List Nat) (size : Nat) :
    (send env pkt size).1 = sendResult env := by
  rw [send_eq]; rfl

/-- Every result of `att_read` is at most 23. -/
theorem att_read_ret_le (env : Env) (h : Nat) (buf : List Nat) (len : Int) (r : ReadResult)
    (hr : att_read env h buf len = some r) : r.ret ≤ 23 := by
  have hlen := recvBytes_length_le env 24
  rw [att_read_run] at hr
  simp only at hr
  split_ifs at hr <;>
    (simp only [Option.some.injEq] at hr
     try subst hr
     try simp only
     try omega)

/-- Every result of `att_read_not` is at most 23. -/
theorem att_read_not_ret_le (env : Env) (handle : Nat) (buf : List Nat) (len : Int)
    (r : NotResult) (hr : att_read_not env handle buf len = some r) : r.ret ≤ 23 := by
  have hlen := recvBytes_length_le env 26
  rw [att_read_not_run] at hr
  simp only at hr
  split_ifs at hr
  · simp only [Option.some.injEq] at hr; subst hr; simp only; omega
  · simp only [Option.some.injEq] at hr; subst hr; simp only; omega
  · simp only [Option.some.injEq] at hr; subst hr; simp only; omega
  · simp only [Option.some.injEq] at hr; subst hr; simp only; omega
  · split at hr
    · exact absurd hr (by simp)
    · simp only [Option.some.injEq] at hr; subst hr; simp only; omega

/-! ## Properties of the specification -/

/-- C1. Round trip of a write PDU. For every 16-bit handle `h` and every value `v` of at
most 20 bytes, `att_write` and `att_wrreq` return, each hands exactly one PDU to `send`,
and decoding that PDU the way `att_read_not` decodes handle and value (handle from the
two bytes after the opcode through `rpkt_handle`, on a host of either byte order; value
from the bytes after the 3-byte header through `rpkt_payload`) gives back `h` and `v`. -/
theorem write_pdu_roundtrip (env : Env) (h : Nat) (v : List Nat)
    (hh : h < 65536) (hv : v.length ≤ 20) :
    (∃ r pdu, att_write env h v v.length = some r
        ∧ sent r.env.trace = sent env.trace ++ [pdu]
        ∧ (∀ be, rpkt_handle be pdu = h) ∧ rpkt_payload pdu (pdu.length : Nat) = v)
    ∧ (∃ r pdu, att_wrreq env h v v.length = some r
        ∧ sent r.env.trace = sent env.trace ++ [pdu]
        ∧ (∀ be, rpkt_handle be pdu = h) ∧ rpkt_payload pdu (pdu.length : Nat) = v) := by
  have hlo : h % 256 < 256 := Nat.mod_lt _ (by decide)
  have hhi : h / 256 % 256 < 256 := Nat.mod_lt _ (by decide)
  have hdec : ∀ (op : Nat) (be : Bool),
      rpkt_handle be (op :: h % 256 :: h / 256 % 256 :: v) = h := by
    intro op be
    rw [rpkt_handle_cons be op _ _ v hlo hhi]
    omega
  constructor
  · refine ⟨_, 0x52 :: h % 256 :: h / 256 % 256 :: v, att_write_run env h v hv,
      sent_afterSend _ _, hdec _, rpkt_payload_cons _ _ _ v (by omega)⟩
  · rw [att_wrreq_run env h v hv]
    simp only
    split_ifs <;>
      exact ⟨_, 0x12 :: h % 256 :: h / 256 % 256 :: v, rfl,
        by simp only [sent_afterSend, sent_afterRecv], hdec _,
        rpkt_payload_cons _ _ _ v (by omega)⟩

/-- C1, instance: handle `002C` and value `01 02 03` through `att_write`. -/
theorem write_pdu_roundtrip_witness :
    ∃ r pdu, att_write (demoEnv []) 0x002C [1, 2, 3] 3 = some r
      ∧ sent r.env.trace = sent (demoEnv []).trace ++ [pdu]
      ∧ (∀ be, rpkt_handle be pdu = 0x002C)
      ∧ rpkt_payload pdu (pdu.length : Nat) = [1, 2, 3] :=
  (write_pdu_roundtrip (demoEnv []) 0x002C [1, 2, 3] (by decide) (by decide)).1

/-- C2. Value too long. For every handle and every value length above 20 (= MTU - 3),
`att_write` and `att_wrreq` return -1 and leave the environment as it was: nothing is
sent and nothing is received. -/
theorem write_value_too_long (env : Env) (h : Nat) (buf : List Nat) (length : Nat)
    (hlen : 20 < length) :
    att_write env h buf length = some ⟨-1, env⟩
      ∧ att_wrreq env h buf length = some ⟨-1, env⟩ := by
  have h1 : length > BT_ATT_DEFAULT_LE_MTU - 1 - 2 := by
    simp [BT_ATT_DEFAULT_LE_MTU]; omega
  constructor
  · simp only [att_write, h1, if_true]
  · simp only [att_wrreq, h1, if_true]

/-- C2, instance: a value of 21 bytes (MTU - 2). -/
theorem write_value_too_long_witness :
    att_write (demoEnv []) 0x002C (List.replicate 21 0xFF) 21 = some ⟨-1, demoEnv []⟩
      ∧ att_wrreq (demoEnv []) 0x002C (List.replicate 21 0xFF) 21 = some ⟨-1, demoEnv []⟩ :=
  write_value_too_long (demoEnv []) 0x002C (List.replicate 21 0xFF) 21 (by decide)

/-- C3. Notification. When `recv` stores the PDU `1B lo hi` followed by `p`, with the
length of `p` at most the declared capacity `len` of the caller's buffer (which the buffer
really has), `att_read_not` returns the length of `p`, sets the handle to `lo + 256 * hi`
and overwrites the start of the buffer with exactly `p`. -/
theorem att_read_not_notification (env : Env) (handle : Nat) (buf : List Nat) (len : Int)
    (d : List Nat) (more : List Inbound) (lo hi : Nat) (p : List Nat)
    (hin : env.inbound = Inbound.data d :: more)
    (hpdu : d.take 26 = 0x1B :: lo :: hi :: p)
    (hlo : lo < 256) (hhi : hi < 256)
    (hp : (p.length : Int) ≤ len) (hcap : len ≤ (buf.length : Int)) :
    att_read_not env handle buf len =
      some ⟨p.length, lo + 256 * hi, p ++ buf.drop p.length, afterRecv env 26⟩ := by
  have hgot : recvBytes env 26 = 0x1B :: lo :: hi :: p := by
    rw [recvBytes_data env 26 d more hin, hpdu]
  have hres : ¬ recvResult env 26 < 0 := by
    rw [recvResult_data env 26 d more hin]; omega
  have hplen : p.length ≤ 23 := by
    have h1 : (d.take 26).length ≤ 26 := by simp
    rw [hpdu] at h1
    simp only [List.length_cons] at h1
    omega
  have hint : (((0x1B :: lo :: hi :: p).length : Nat) : Int) - 3 = (p.length : Nat) := by
    simp only [List.length_cons]; push_cast; omega
  have hcap2 : p.length ≤ buf.length := by omega
  rw [att_read_not_run]
  simp only [hgot, if_neg hres, List.cons_append, List.getD_cons_zero, hint,
    size_t_natCast p.length (by omega)]
  rw [if_neg (by simp), if_neg (by simp), if_neg (by omega)]
  simp only [List.drop_succ_cons, List.drop_zero, rpkt_handle_cons _ _ _ _ _ hlo hhi]
  rw [memcpy_ok _ _ _ (by simp) hcap2]
  simp

/-- C3, instance: the PDU `1B 2C 00 01 02 03` gives handle `002C` and payload
`01 02 03`. -/
theorem att_read_not_notification_witness :
    att_read_not (demoEnv [Inbound.data [0x1B, 0x2C, 0x00, 0x01, 0x02, 0x03]]) 0
        [0, 0, 0, 0] 4
      = some ⟨3, 0x002C, [0x01, 0x02, 0x03, 0],
          afterRecv (demoEnv [Inbound.data [0x1B, 0x2C, 0x00, 0x01, 0x02, 0x03]]) 26⟩ :=
  att_read_not_notification (demoEnv [Inbound.data [0x1B, 0x2C, 0x00, 0x01, 0x02, 0x03]]) 0
    [0, 0, 0, 0] 4 [0x1B, 0x2C, 0x00, 0x01, 0x02, 0x03] [] 0x2C 0x00 [0x01, 0x02, 0x03]
    rfl rfl (by decide) (by decide) (by decide) (by decide)

/-- C4. Read response. When the request was sent and `recv` stores a PDU whose first byte
is `0B`, followed by the bytes `p`, with the length of `p` at most the declared capacity
`len` of the caller's buffer (which the buffer really has), `att_read` returns the length
of `p` (the received length minus one) and the buffer starts with exactly `p`. -/
theorem att_read_response (env : Env) (h : Nat) (buf : List Nat) (len : Int)
    (r : Int) (rs : List Int) (d : List Nat) (more : List Inbound) (p : List Nat)
    (hsend : env.sendResults = r :: rs) (hr : 0 ≤ r)
    (hin : env.inbound = Inbound.data d :: more)
    (hpdu : d.take 24 = 0x0B :: p)
    (hp : (p.length : Int) ≤ len) (hcap : len ≤ (buf.length : Int)) :
    att_read env h buf len =
      some ⟨p.length, p ++ buf.drop p.length,
        afterRecv (afterSend env [0x0A, h % 256, h / 256 % 256]) 24⟩ := by
  have hgot : recvBytes env 24 = 0x0B :: p := by
    rw [recvBytes_data env 24 d more hin, hpdu]
  have hres : ¬ recvResult env 24 < 0 := by
    rw [recvResult_data env 24 d more hin]; omega
  have hint : (((0x0B :: p).length : Nat) : Int) - 1 = (p.length : Nat) := by
    simp only [List.length_cons]; push_cast; omega
  have hcap2 : (0x0B :: p).length - 1 ≤ buf.length := by
    simp only [List.length_cons]; omega
  rw [att_read_run]
  simp only [hgot, if_neg hres, if_neg (headD_cons_nonneg env r rs hsend hr), hint]
  rw [if_neg (by simp), if_neg (by simp), if_neg (by omega), if_pos hcap2]
  simp

/-- C4, instance: the read response `0B DE AD` into a buffer of 3 bytes. -/
theorem att_read_response_witness :
    att_read (demoEnv [Inbound.data [0x0B, 0xDE, 0xAD]]) 0x0010 [0, 0, 0] 3
      = some ⟨2, [0xDE, 0xAD, 0],
          afterRecv (afterSend (demoEnv [Inbound.data [0x0B, 0xDE, 0xAD]])
            [0x0A, 0x10, 0x00]) 24⟩ :=
  att_read_response (demoEnv [Inbound.data [0x0B, 0xDE, 0xAD]]) 0x0010 [0, 0, 0] 3
    3 [] [0x0B, 0xDE, 0xAD] [] [0xDE, 0xAD] rfl (by decide) rfl rfl (by decide) (by decide)

/-- C5. Overflow. When the request was sent and `recv` stores a read response whose
payload `p` is longer than the declared capacity `len`, `att_read` returns the error
value -2 and the caller's buffer is unchanged: no byte of the payload is copied. -/
theorem att_read_overflow (env : Env) (h : Nat) (buf : List Nat) (len : Int)
    (r : Int) (rs : List Int) (d : List Nat) (more : List Inbound) (p : List Nat)
    (hsend : env.sendResults = r :: rs) (hr : 0 ≤ r)
    (hin : env.inbound = Inbound.data d :: more)
    (hpdu : d.take 24 = 0x0B :: p)
    (hp : len < (p.length : Int)) :
    att_read env h buf len =
      some ⟨-2, buf, afterRecv (afterSend env [0x0A, h % 256, h / 256 % 256]) 24⟩ := by
  have hgot : recvBytes env 24 = 0x0B :: p := by
    rw [recvBytes_data env 24 d more hin, hpdu]
  have hres : ¬ recvResult env 24 < 0 := by
    rw [recvResult_data env 24 d more hin]; omega
  have hint : (((0x0B :: p).length : Nat) : Int) - 1 = (p.length : Nat) := by
    simp only [List.length_cons]; push_cast; omega
  rw [att_read_run]
  simp only [hgot, if_neg hres, if_neg (headD_cons_nonneg env r rs hsend hr), hint]
  rw [if_neg (by simp), if_neg (by simp), if_pos (by omega)]

/-- C5, instance: the read response `0B DE AD` into a buffer of 1 byte. -/
theorem att_read_overflow_witness :
    att_read (demoEnv [Inbound.data [0x0B, 0xDE, 0xAD]]) 0x0010 [7] 1
      = some ⟨-2, [7],
          afterRecv (afterSend (demoEnv [Inbound.data [0x0B, 0xDE, 0xAD]])
            [0x0A, 0x10, 0x00]) 24⟩ :=
  att_read_overflow (demoEnv [Inbound.data [0x0B, 0xDE, 0xAD]]) 0x0010 [7] 1
    3 [] [0x0B, 0xDE, 0xAD] [] [0xDE, 0xAD] rfl (by decide) rfl rfl (by decide)

/-- C6, counterexample. For the Error Response `01 0A 10 00 0A` the result of `att_read`
is the bare value -2, and no function of the result of `att_read` recovers the error code
of the received Error Response: the codes `0A` and `0E` give the same result. -/
theorem att_read_error_code_not_carried :
    att_read (errorRspEnv 0x0A) 0x0010 [0, 0] 2
        = some ⟨-2, [0, 0], afterRecv (afterSend (errorRspEnv 0x0A) [0x0A, 0x10, 0x00]) 24⟩
      ∧ ¬ ∃ code : Option ReadResult → Nat,
          ∀ c : Nat, c < 256 → code (att_read (errorRspEnv c) 0x0010 [0, 0] 2) = c := by
  refine ⟨by decide, ?_⟩
  rintro ⟨code, hc⟩
  have h1 := hc 0x0A (by decide)
  have h2 := hc 0x0E (by decide)
  have he : att_read (errorRspEnv 0x0A) 0x0010 [0, 0] 2
      = att_read (errorRspEnv 0x0E) 0x0010 [0, 0] 2 := by decide
  rw [he] at h1
  omega

/-- C6, as the code behaves. When the request was sent and `recv` stores a 5-byte PDU
whose first byte is the error opcode `01`, `att_read` returns -2, whatever the error code
in the last byte, and leaves the caller's buffer and the diagnostics unchanged. -/
theorem att_read_error_rsp (env : Env) (h : Nat) (buf : List Nat) (len : Int)
    (r : Int) (rs : List Int) (d : List Nat) (more : List Inbound) (b1 b2 b3 code : Nat)
    (hsend : env.sendResults = r :: rs) (hr : 0 ≤ r)
    (hin : env.inbound = Inbound.data d :: more)
    (hpdu : d.take 24 = [0x01, b1, b2, b3, code]) :
    att_read env h buf len =
      some ⟨-2, buf, afterRecv (afterSend env [0x0A, h % 256, h / 256 % 256]) 24⟩ := by
  have hgot : recvBytes env 24 = [0x01, b1, b2, b3, code] := by
    rw [recvBytes_data env 24 d more hin, hpdu]
  have hres : ¬ recvResult env 24 < 0 := by
    rw [recvResult_data env 24 d more hin]; omega
  rw [att_read_run]
  simp only [hgot, if_neg hres, if_neg (headD_cons_nonneg env r rs hsend hr)]
  rw [if_pos (by simp)]

/-- C6, instance: the Error Response `01 0A 10 00 0A`. -/
theorem att_read_error_rsp_witness :
    att_read (errorRspEnv 0x0A) 0x0010 [0, 0] 2
      = some ⟨-2, [0, 0], afterRecv (afterSend (errorRspEnv 0x0A) [0x0A, 0x10, 0x00]) 24⟩ :=
  att_read_error_rsp (errorRspEnv 0x0A) 0x0010 [0, 0] 2
    3 [] [0x01, 0x0A, 0x10, 0x00, 0x0A] [] 0x0A 0x10 0x00 0x0A rfl (by decide) rfl rfl

/-- C7. The description table. `att_ecode2str` maps the twenty `ATT_ECODE_*` codes to the
listed descriptions (`0A` to the text about the attribute range), none of which is the
generic text, and maps every other argument, among them `00`, `50`, `12` to `7F` and
everything from `83` up, to the generic text. -/
theorem att_ecode2str_table :
    definedCodes.map att_ecode2str =
        ["Invalid handle", "Attribute can't be read", "Attribute can't be written",
          "Attribute PDU was invalid", "Attribute requires authentication before read/write",
          "Server doesn't support the request received", "Offset past the end of the attribute",
          "Attribute requires authorization before read/write",
          "Too many prepare writes have been queued",
          "No attribute found within the given range",
          "Attribute can't be read/written using Read Blob Req",
          "Encryption Key Size is insufficient", "Attribute value length is invalid",
          "Request attribute has encountered an unlikely error",
          "Encryption required before read/write",
          "Attribute type is not a supported grouping attribute",
          "Insufficient Resources to complete the request", "Internal application error: I/O",
          "A timeout occured", "The operation was aborted"]
      ∧ att_ecode2str 0x0A = "No attribute found within the given range"
      ∧ (∀ s, s ∈ definedCodes → att_ecode2str s ≠ "Unexpected error code")
      ∧ (∀ s, s ∉ definedCodes → att_ecode2str s = "Unexpected error code")
      ∧ (∀ s, s = 0x00 ∨ s = 0x50 ∨ (0x12 ≤ s ∧ s ≤ 0x7F) ∨ 0x83 ≤ s →
          att_ecode2str s = "Unexpected error code") := by
  refine ⟨by decide, by decide, att_ecode2str_defined, att_ecode2str_undefined, ?_⟩
  intro s hs
  apply att_ecode2str_undefined
  rw [mem_definedCodes_iff]
  omega

/-- C7, instance: the undefined code `50`. -/
theorem att_ecode2str_table_witness : att_ecode2str 0x50 = "Unexpected error code" :=
  att_ecode2str_table.2.2.2.1 0x50 (by decide)

/-- C8, counterexample. It is not the case that 19 codes of the range `01` to `11` have a
description of their own and that 22 codes have one in total. -/
theorem described_codes_not_19_plus_3 :
    ¬ ((describedCodes.filter fun s => decide (0x01 ≤ s ∧ s ≤ 0x11)).length = 19
        ∧ describedCodes.length = 22) := by decide

/-- C8, as the code behaves. The 8-bit codes with a description of their own are the 17
codes `01` to `11` and the 3 codes `80`, `81`, `82`, 20 in total; the same
characterisation holds for every argument. -/
theorem described_codes_17_plus_3 :
    describedCodes =
        [0x01, 0x02, 0x03, 0x04, 0x05, 0x06, 0x07, 0x08, 0x09, 0x0A, 0x0B, 0x0C, 0x0D, 0x0E,
          0x0F, 0x10, 0x11] ++ [0x80, 0x81, 0x82]
      ∧ (describedCodes.filter fun s => decide (0x01 ≤ s ∧ s ≤ 0x11)).length = 17
      ∧ (describedCodes.filter fun s => decide (s = 0x80 ∨ s = 0x81 ∨ s = 0x82)).length = 3
      ∧ describedCodes.length = 20
      ∧ (∀ s, att_ecode2str s ≠ "Unexpected error code" ↔
          (0x01 ≤ s ∧ s ≤ 0x11) ∨ s = 0x80 ∨ s = 0x81 ∨ s = 0x82) := by
  refine ⟨by decide, by decide, by decide, by decide, ?_⟩
  intro s
  rw [← mem_definedCodes_iff]
  constructor
  · intro h
    by_contra hn
    exact h (att_ecode2str_undefined s hn)
  · exact att_ecode2str_defined s

/-- C9, counterexample. A received PDU `13 AA BB`, the write-response opcode followed by
two payload bytes, makes `att_wrreq` return the value length 2, its success value. -/
theorem att_wrreq_accepts_payload :
    (att_wrreq (demoEnv [Inbound.data [0x13, 0xAA, 0xBB]]) 0x0010 [1, 2] 2).map
      (fun r => r.ret) = some 2 := by decide

/-- C9, as the code behaves. For a value of at most 20 bytes `att_wrreq` returns, and it
returns the value length exactly when the `send` result is not negative and `recv`
delivers a PDU whose first byte is the write-response opcode `13`; the bytes after the
opcode are not examined. -/
theorem att_wrreq_success_iff (env : Env) (h : Nat) (v : List Nat) (hv : v.length ≤ 20) :
    ∃ r, att_wrreq env h v v.length = some r
      ∧ (r.ret = (v.length : Int) ↔
          (∃ s rs, env.sendResults = s :: rs ∧ 0 ≤ s)
            ∧ ∃ rest more, env.inbound = Inbound.data (0x13 :: rest) :: more) := by
  rw [att_wrreq_run env h v hv, ← send_ok_iff, ← recvBytes_head_iff env 23 0x13 (by decide)]
  simp only
  by_cases hs : env.sendResults.headD (-1) < 0
  · rw [if_pos hs]
    refine ⟨_, rfl, ?_⟩
    constructor
    · intro hret; simp only at hret; omega
    · intro hc; exact absurd hs hc.1
  · rw [if_neg hs]
    by_cases hr : recvResult env 24 < 0
    · rw [if_pos hr]
      refine ⟨_, rfl, ?_⟩
      constructor
      · intro hret; simp only at hret; omega
      · intro hc
        rw [recvBytes_of_neg env 24 hr] at hc
        simp at hc
    · rw [if_neg hr]
      have hnot : ∀ e : Env, ¬ (WriteResult.mk (-2) e).ret = (v.length : Int) := by
        intro e hret
        have h2 : (-2 : Int) = (v.length : Int) := hret
        omega
      by_cases he : (recvBytes env 24).headD 0 = 1 ∧ (recvBytes env 24).length = 5
      · rw [if_pos he]
        refine ⟨_, rfl, fun hret => absurd hret (hnot _), ?_⟩
        intro hc
        exact absurd (he.1.symm.trans hc.2) (by decide)
      · rw [if_neg he]
        by_cases ho : (recvBytes env 24).headD 0 ≠ 19
        · rw [if_pos ho]
          exact ⟨_, rfl, fun hret => absurd hret (hnot _), fun hc => absurd hc.2 ho⟩
        · rw [if_neg ho]
          exact ⟨_, rfl, fun _ => ⟨hs, not_not.mp ho⟩, fun _ => rfl⟩

/-- C9, instance: the bare Write Response `13` after a value of 2 bytes. -/
theorem att_wrreq_success_iff_witness :
    ∃ r, att_wrreq (demoEnv [Inbound.data [0x13]]) 0x0010 [1, 2] 2 = some r
      ∧ (r.ret = 2 ↔
          (∃ s rs, (demoEnv [Inbound.data [0x13]]).sendResults = s :: rs ∧ 0 ≤ s)
            ∧ ∃ rest more,
                (demoEnv [Inbound.data [0x13]]).inbound
                  = Inbound.data (0x13 :: rest) :: more) :=
  att_wrreq_success_iff (demoEnv [Inbound.data [0x13]]) 0x0010 [1, 2] (by decide)

/-- C10. Outbound size. `att_read` (called with a buffer that has the declared capacity)
hands one PDU of 3 bytes to `send`; for a value `v` of at most 20 bytes `att_write` and
`att_wrreq` each hand one PDU of `3 + len v` bytes to `send`; none exceeds the MTU of 23
bytes. -/
theorem outbound_pdu_within_mtu (env : Env) (h : Nat) (buf : List Nat) (len : Int)
    (v : List Nat) (hv : v.length ≤ 20) (hcap : len ≤ (buf.length : Int)) :
    (∃ r pdu, att_read env h buf len = some r
        ∧ sent r.env.trace = sent env.trace ++ [pdu]
        ∧ pdu.length = 3 ∧ pdu.length ≤ BT_ATT_DEFAULT_LE_MTU)
    ∧ (∃ r pdu, att_write env h v v.length = some r
        ∧ sent r.env.trace = sent env.trace ++ [pdu]
        ∧ pdu.length = 3 + v.length ∧ pdu.length ≤ BT_ATT_DEFAULT_LE_MTU)
    ∧ (∃ r pdu, att_wrreq env h v v.length = some r
        ∧ sent r.env.trace = sent env.trace ++ [pdu]
        ∧ pdu.length = 3 + v.length ∧ pdu.length ≤ BT_ATT_DEFAULT_LE_MTU) := by
  have hl : (0x12 :: h % 256 :: h / 256 % 256 :: v).length = 3 + v.length := by
    simp only [List.length_cons]; omega
  have hl2 : (0x52 :: h % 256 :: h / 256 % 256 :: v).length = 3 + v.length := by
    simp only [List.length_cons]; omega
  have hm : 3 + v.length ≤ BT_ATT_DEFAULT_LE_MTU := by
    simp only [BT_ATT_DEFAULT_LE_MTU]; omega
  refine ⟨?_, ?_, ?_⟩
  · rw [att_read_run]
    simp only
    split_ifs <;>
      first
      | exact ⟨_, [0x0A, h % 256, h / 256 % 256], rfl,
          by simp only [sent_afterSend, sent_afterRecv], rfl,
          by simp [BT_ATT_DEFAULT_LE_MTU]⟩
      | (exfalso; omega)
  · exact ⟨_, 0x52 :: h % 256 :: h / 256 % 256 :: v, att_write_run env h v hv,
      sent_afterSend _ _, hl2, hl2 ▸ hm⟩
  · rw [att_wrreq_run env h v hv]
    simp only
    split_ifs <;>
      exact ⟨_, 0x12 :: h % 256 :: h / 256 % 256 :: v, rfl,
        by simp only [sent_afterSend, sent_afterRecv], hl, hl ▸ hm⟩

/-- C10, instance: a value of 20 bytes gives a Write Command of 23 bytes. -/
theorem outbound_pdu_within_mtu_witness :
    ∃ r pdu, att_write (demoEnv []) 0x0010 (List.replicate 20 0xFF) 20 = some r
      ∧ sent r.env.trace = sent (demoEnv []).trace ++ [pdu]
      ∧ pdu.length = 23 ∧ pdu.length ≤ BT_ATT_DEFAULT_LE_MTU :=
  (outbound_pdu_within_mtu (demoEnv []) 0x0010 [] 0 (List.replicate 20 0xFF)
    (by decide) (by decide)).2.1

/-- C11. Write Command. For every 16-bit handle `h` and every value `v` of at most 20
bytes, `att_write` makes exactly one socket call, a `send` of the bytes
`52, h mod 256, h div 256` followed by `v`, makes no `recv`, and returns the length of `v`
when the `send` result is not negative and the `send` result otherwise. -/
theorem att_write_one_send (env : Env) (h : Nat) (v : List Nat)
    (hh : h < 65536) (hv : v.length ≤ 20) :
    ∃ r, att_write env h v v.length = some r
      ∧ r.env = afterSend env ([0x52, h % 256, h / 256] ++ v)
      ∧ sent r.env.trace = sent env.trace ++ [[0x52, h % 256, h / 256] ++ v]
      ∧ received r.env.trace = received env.trace
      ∧ r.ret =
          (if (send env ([0x52, h % 256, h / 256] ++ v) (3 + v.length)).1 < 0
            then (send env ([0x52, h % 256, h / 256] ++ v) (3 + v.length)).1
            else (v.length : Int)) := by
  refine ⟨_, att_write_run env h v hv, ?_, ?_, ?_, ?_⟩
  · simp only [high_byte h hh, List.cons_append, List.nil_append]
  · simp only [sent_afterSend, high_byte h hh, List.cons_append, List.nil_append]
  · simp only [received_afterSend]
  · simp only [send_fst]

/-- C11, instance: handle `002C` and value `01 02 03`. -/
theorem att_write_one_send_witness :
    ∃ r, att_write (demoEnv []) 0x002C [1, 2, 3] 3 = some r
      ∧ r.env = afterSend (demoEnv []) [0x52, 0x2C, 0x00, 1, 2, 3]
      ∧ sent r.env.trace = [[0x52, 0x2C, 0x00, 1, 2, 3]]
      ∧ received r.env.trace = []
      ∧ r.ret = 3 :=
  att_write_one_send (demoEnv []) 0x002C [1, 2, 3] (by decide) (by decide)

/-- C12. Read Request. For every 16-bit handle `h`, whatever the caller's buffer and its
declared capacity `len` (which the buffer really has), `att_read` hands to `send` exactly
the 3 bytes `0A, h mod 256, h div 256`: the handle least-significant byte first. -/
theorem att_read_request_bytes (env : Env) (h : Nat) (buf : List Nat) (len : Int)
    (hh : h < 65536) (hcap : len ≤ (buf.length : Int)) :
    ∃ r, att_read env h buf len = some r
      ∧ sent r.env.trace = sent env.trace ++ [[0x0A, h % 256, h / 256]] := by
  rw [att_read_run, high_byte h hh]
  simp only
  split_ifs <;>
    first
    | exact ⟨_, rfl, by simp only [sent_afterSend, sent_afterRecv]⟩
    | (exfalso; omega)

/-- C12, instance: handle `1234` is sent as `0A 34 12`. -/
theorem att_read_request_bytes_witness :
    ∃ r, att_read (demoEnv [Inbound.data [0x0B, 0xDE, 0xAD]]) 0x1234 [0, 0, 0] 3 = some r
      ∧ sent r.env.trace = [[0x0A, 0x34, 0x12]] :=
  att_read_request_bytes (demoEnv [Inbound.data [0x0B, 0xDE, 0xAD]]) 0x1234 [0, 0, 0] 3
    (by decide) (by decide)

/-- C13, the code at the failing input. A received PDU of 1 or 2 bytes that starts with
the notification opcode `1B` passes the overflow test of `att_read_not` with a declared
capacity of 4; the byte count `1 - 3` handed to `memcpy` is negative, as a `size_t` it is
`2 ^ 64 - 2`, and the copy leaves both the receive object and the caller's buffer. -/
theorem att_read_not_short_notification :
    att_read_not (demoEnv [Inbound.data [0x1B]]) 0 [0, 0, 0, 0] 4 = none
      ∧ att_read_not (demoEnv [Inbound.data [0x1B, 0x2C]]) 0 [0, 0, 0, 0] 4 = none
      ∧ size_t (1 - 3) = 2 ^ 64 - 2 ∧ ¬ (0 ≤ ((1 : Int) - 3)) := by
  decide

/-- C14, the code at the failing input. When `recv` returns 0 bytes, `att_read_not` reads
the opcode from its uninitialised receive object: over a stale first byte `00` it returns
-2, over a stale first byte `1B` it goes on to a copy of `(size_t)(0 - 3)` bytes. -/
theorem att_read_not_depends_on_stale_opcode :
    att_read_not (staleEnv [0x00] [Inbound.data []]) 0 [0, 0, 0, 0] 4
        = some ⟨-2, 0, [0, 0, 0, 0], afterRecv (staleEnv [0x00] [Inbound.data []]) 26⟩
      ∧ att_read_not (staleEnv [0x1B] [Inbound.data []]) 0 [0, 0, 0, 0] 4 = none := by
  decide

/-- C15, the code at the failing input. For the received Error Response
`01 0A 10 00 0A`, `att_read` and `att_wrreq` decode failed opcode `0A`, handle `0010` and
code `0A`, while `att_read_not` reads the struct two bytes further on: failed opcode from
received byte 3, handle from byte 4 and the byte after the PDU, code from stale memory. -/
theorem att_read_not_error_fields_misplaced :
    att_read_err (errorRspEnv 0x0A) = ⟨0x0A, 0x0010, 0x0A⟩
      ∧ att_wrreq_err (errorRspEnv 0x0A) = ⟨0x0A, 0x0010, 0x0A⟩
      ∧ att_read_not_err (errorRspEnv 0x0A) = ⟨0x00, 0x000A, 0x00⟩
      ∧ att_read_not_err (staleEnv (List.replicate 26 0xEE)
          [Inbound.data [0x01, 0x0A, 0x10, 0x00, 0x0A]]) = ⟨0x00, 0xEE0A, 0xEE⟩ := by
  decide

/-- C16. Rejection by `att_read_not`. When `recv` stores a PDU of at least one byte whose
first byte is not the notification opcode `1B`, or a PDU whose length minus 3 exceeds the
declared capacity `len`, `att_read_not` returns the negative value -2 and leaves the
caller's handle variable and buffer unchanged. -/
theorem att_read_not_rejects (env : Env) (handle : Nat) (buf : List Nat) (len : Int)
    (d : List Nat) (more : List Inbound) (op : Nat) (rest : List Nat)
    (hin : env.inbound = Inbound.data d :: more)
    (hpdu : d.take 26 = op :: rest)
    (hcase : op ≠ 0x1B ∨ len < ((op :: rest).length : Int) - 3) :
    att_read_not env handle buf len = some ⟨-2, handle, buf, afterRecv env 26⟩
      ∧ (-2 : Int) < 0 := by
  have hgot : recvBytes env 26 = op :: rest := by
    rw [recvBytes_data env 26 d more hin, hpdu]
  have hres : ¬ recvResult env 26 < 0 := by
    rw [recvResult_data env 26 d more hin]; omega
  refine ⟨?_, by decide⟩
  rw [att_read_not_run]
  simp only [hgot, if_neg hres, opcode_of_nonempty]
  by_cases he : op = 1 ∧ (op :: rest).length = 5
  · rw [if_pos he]
  · rw [if_neg he]
    by_cases ho : op ≠ 27
    · rw [if_pos ho]
    · rw [if_neg ho]
      have hl : ((op :: rest).length : Int) - 3 > len := by
        rcases hcase with h1 | h2
        · exact absurd h1 ho
        · exact h2
      rw [if_pos hl]

/-- C16, instance: a notification with 3 payload bytes for a capacity of 2. -/
theorem att_read_not_rejects_witness :
    att_read_not (demoEnv [Inbound.data [0x1B, 0x2C, 0x00, 1, 2, 3]]) 7 [9, 9] 2
        = some ⟨-2, 7, [9, 9],
            afterRecv (demoEnv [Inbound.data [0x1B, 0x2C, 0x00, 1, 2, 3]]) 26⟩
      ∧ (-2 : Int) < 0 :=
  att_read_not_rejects (demoEnv [Inbound.data [0x1B, 0x2C, 0x00, 1, 2, 3]]) 7 [9, 9] 2
    [0x1B, 0x2C, 0x00, 1, 2, 3] [] 0x1B [0x2C, 0x00, 1, 2, 3] rfl rfl
    (Or.inr (by decide))

/-- C17. Rejection by `att_read`. When the request was sent and `recv` stores a PDU that
does not start with the read-response opcode `0B` (an Error Response of 5 bytes, an error
opcode with any other length, any other opcode, or no byte at all), `att_read` returns -2
and leaves the caller's buffer unchanged. -/
theorem att_read_rejects (env : Env) (h : Nat) (buf : List Nat) (len : Int)
    (s : Int) (rs : List Int) (d : List Nat) (more : List Inbound)
    (hsend : env.sendResults = s :: rs) (hs : 0 ≤ s)
    (hin : env.inbound = Inbound.data d :: more)
    (hop : ∀ rest, d.take 24 ≠ 0x0B :: rest) :
    att_read env h buf len =
      some ⟨-2, buf, afterRecv (afterSend env [0x0A, h % 256, h / 256 % 256]) 24⟩ := by
  have hgot : recvBytes env 24 = d.take 24 := recvBytes_data env 24 d more hin
  have hres : ¬ recvResult env 24 < 0 := by
    rw [recvResult_data env 24 d more hin]; omega
  have hne : (d.take 24).headD 0 ≠ 11 := by
    intro heq
    obtain ⟨rest, hrest⟩ := (headD_eq_iff _ 11 (by decide)).mp heq
    exact hop rest hrest
  rw [att_read_run]
  simp only [hgot, if_neg hres, if_neg (headD_cons_nonneg env s rs hsend hs)]
  by_cases he : (d.take 24).headD 0 = 1 ∧ (d.take 24).length = 5
  · rw [if_pos he]
  · rw [if_neg he, if_pos hne]

/-- C17, instance: the error opcode in a PDU of 3 bytes. -/
theorem att_read_rejects_witness :
    att_read (demoEnv [Inbound.data [0x01, 0x0A, 0x10]]) 0x0010 [9, 9] 2
      = some ⟨-2, [9, 9],
          afterRecv (afterSend (demoEnv [Inbound.data [0x01, 0x0A, 0x10]])
            [0x0A, 0x10, 0x00]) 24⟩ :=
  att_read_rejects (demoEnv [Inbound.data [0x01, 0x0A, 0x10]]) 0x0010 [9, 9] 2
    3 [] [0x01, 0x0A, 0x10] [] rfl (by decide) rfl (by simp)

/-- C18, counterexample. A read response of 24 bytes makes `att_read` return 23, above
MTU - 1 = 22, and a notification of 26 bytes makes `att_read_not` return 23, above
MTU - 3 = 20; both PDUs fit the receive objects. -/
theorem inbound_length_exceeds_layout :
    (att_read (demoEnv [Inbound.data (0x0B :: List.replicate 23 0xFF)]) 0x0010
        (List.replicate 23 0) 23).map (fun r => r.ret) = some 23
      ∧ (att_read_not (demoEnv [Inbound.data (0x1B :: 0x2C :: 0x00 :: List.replicate 23 0xFF)])
          0 (List.replicate 23 0) 23).map (fun r => r.ret) = some 23
      ∧ ¬ ((23 : Int) ≤ 22) ∧ ¬ ((23 : Int) ≤ 20) := by
  decide

/-- C18, as the code behaves. Every result of `att_read` and every result of
`att_read_not` is at most the MTU of 23: the receive objects hold 23 bytes after the
opcode, respectively after opcode and handle. -/
theorem inbound_length_bounds (env : Env) (h handle : Nat) (buf : List Nat) (len : Int) :
    (∀ r, att_read env h buf len = some r → r.ret ≤ (BT_ATT_DEFAULT_LE_MTU : Int))
      ∧ (∀ r, att_read_not env handle buf len = some r →
          r.ret ≤ (BT_ATT_DEFAULT_LE_MTU : Int)) := by
  constructor
  · intro r hr
    have := att_read_ret_le env h buf len r hr
    simpa [BT_ATT_DEFAULT_LE_MTU] using this
  · intro r hr
    have := att_read_not_ret_le env handle buf len r hr
    simpa [BT_ATT_DEFAULT_LE_MTU] using this

/-- C18, instance: the bound 23 is reached by `att_read` on a PDU of 24 bytes. -/
theorem inbound_length_bounds_witness :
    (ReadResult.mk 23 (List.replicate 23 0xFF)
        (afterRecv (afterSend (demoEnv [Inbound.data (0x0B :: List.replicate 23 0xFF)])
          [0x0A, 0x10, 0x00]) 24)).ret ≤ (BT_ATT_DEFAULT_LE_MTU : Int) :=
  (inbound_length_bounds (demoEnv [Inbound.data (0x0B :: List.replicate 23 0xFF)]) 0x0010 0
    (List.replicate 23 0) 23).1 _ (by decide)

/-- C19. No retry. `att_read` and `att_wrreq` make at most one `send` and at most one
`recv` per call. When the `send` result is negative they return it and make no `recv`.
When the `recv` result is negative `att_read`, `att_wrreq` and `att_read_not` return it,
and the caller's buffer and handle variable are unchanged. -/
theorem transport_failures_surface (env : Env) (h handle : Nat) (buf v : List Nat)
    (len : Int) (hcap : len ≤ (buf.length : Int)) :
    (∃ r, att_read env h buf len = some r
        ∧ (sent r.env.trace).length ≤ (sent env.trace).length + 1
        ∧ (received r.env.trace).length ≤ (received env.trace).length + 1)
      ∧ (∃ r, att_wrreq env h v v.length = some r
        ∧ (sent r.env.trace).length ≤ (sent env.trace).length + 1
        ∧ (received r.env.trace).length ≤ (received env.trace).length + 1)
      ∧ (sendResult env < 0 →
          (∃ r, att_read env h buf len = some r ∧ r.ret = sendResult env ∧ r.buf = buf
              ∧ received r.env.trace = received env.trace)
            ∧ (v.length ≤ 20 →
                ∃ r, att_wrreq env h v v.length = some r ∧ r.ret = sendResult env
                  ∧ received r.env.trace = received env.trace))
      ∧ (¬ sendResult env < 0 → recvResult env 24 < 0 →
          (∃ r, att_read env h buf len = some r ∧ r.ret = recvResult env 24 ∧ r.buf = buf)
            ∧ (v.length ≤ 20 →
                ∃ r, att_wrreq env h v v.length = some r ∧ r.ret = recvResult env 24))
      ∧ (recvResult env 26 < 0 →
          ∃ r, att_read_not env handle buf len = some r ∧ r.ret = recvResult env 26
            ∧ r.handle = handle ∧ r.buf = buf) := by
  refine ⟨?_, ?_, ?_, ?_, ?_⟩
  · rw [att_read_run]
    simp only
    split_ifs <;>
      first
      | exact ⟨_, rfl, by simp [sent_afterSend, sent_afterRecv],
          by simp [received_afterSend, received_afterRecv]⟩
      | (exfalso; omega)
  · by_cases hv : v.length ≤ 20
    · rw [att_wrreq_run env h v hv]
      simp only
      split_ifs <;>
        exact ⟨_, rfl, by simp [sent_afterSend, sent_afterRecv],
          by simp [received_afterSend, received_afterRecv]⟩
    · rw [att_wrreq_too_long env h v v.length (by omega)]
      exact ⟨_, rfl, by simp, by simp⟩
  · intro hs
    have hs2 : env.sendResults.headD (-1) < 0 := hs
    constructor
    · rw [att_read_run]
      simp only
      rw [if_pos hs2]
      exact ⟨_, rfl, rfl, rfl, received_afterSend _ _⟩
    · intro hv
      rw [att_wrreq_run env h v hv]
      simp only
      rw [if_pos hs2]
      exact ⟨_, rfl, rfl, received_afterSend _ _⟩
  · intro hs hr
    have hs2 : ¬ env.sendResults.headD (-1) < 0 := hs
    constructor
    · rw [att_read_run]
      simp only
      rw [if_neg hs2, if_pos hr]
      exact ⟨_, rfl, rfl, rfl⟩
    · intro hv
      rw [att_wrreq_run env h v hv]
      simp only
      rw [if_neg hs2, if_pos hr]
      exact ⟨_, rfl, rfl⟩
  · intro hr
    rw [att_read_not_run]
    simp only
    rw [if_pos hr]
    exact ⟨_, rfl, rfl, rfl, rfl⟩

/-- C19, instance: a failing `recv` in `att_read_not`. -/
theorem transport_failures_surface_witness :
    ∃ r, att_read_not (demoEnv [Inbound.fail 0]) 7 [9, 9] 2 = some r
      ∧ r.ret = -1 ∧ r.handle = 7 ∧ r.buf = [9, 9] :=
  (transport_failures_surface (demoEnv [Inbound.fail 0]) 0x0010 7 [9, 9] [1, 2] 2
    (by decide)).2.2.2.2 (by decide)

/-- C20. Empty PDU. When the request was sent and `recv` returns 0 bytes, the opcode
member of the zero-initialised receive object reads `00`; `att_read` returns -2 with the
caller's buffer unchanged and `att_wrreq` returns -2, which is not the value length. -/
theorem empty_pdu_is_not_success (env : Env) (h : Nat) (buf v : List Nat) (len : Int)
    (s : Int) (rs : List Int) (more : List Inbound)
    (hsend : env.sendResults = s :: rs) (hs : 0 ≤ s)
    (hin : env.inbound = Inbound.data [] :: more) (hv : v.length ≤ 20) :
    (recv (afterSend env [0x0A, h % 256, h / 256 % 256]) (List.replicate 24 0) 24).1 = 0
      ∧ (recv (afterSend env [0x0A, h % 256, h / 256 % 256])
          (List.replicate 24 0) 24).2.1.getD 0 0 = 0x00
      ∧ att_read env h buf len =
          some ⟨-2, buf, afterRecv (afterSend env [0x0A, h % 256, h / 256 % 256]) 24⟩
      ∧ att_wrreq env h v v.length =
          some ⟨-2, afterRecv (afterSend env (0x12 :: h % 256 :: h / 256 % 256 :: v)) 24⟩
      ∧ (-2 : Int) ≠ (v.length : Int) ∧ (-2 : Int) < 0 := by
  have hgot : recvBytes env 24 = [] := by
    rw [recvBytes_data env 24 [] more hin]; rfl
  have hres : recvResult env 24 = 0 := by
    rw [recvResult_data env 24 [] more hin]; rfl
  have hres2 : ¬ recvResult env 24 < 0 := by rw [hres]; decide
  have hs2 := headD_cons_nonneg env s rs hsend hs
  refine ⟨?_, ?_, ?_, ?_, by omega, by decide⟩
  · rw [recv_eq, recvResult_afterSend, hres]
  · rw [recv_eq]
    simp only [recvBytes_afterSend, hgot]
    decide
  · rw [att_read_run]
    simp only [hgot, if_neg hres2, if_neg hs2]
    rw [if_neg (by decide), if_pos (by decide)]
  · rw [att_wrreq_run env h v hv]
    simp only [hgot, if_neg hres2, if_neg hs2]
    rw [if_neg (by decide), if_pos (by decide)]

/-- C20, instance: an empty PDU after a read request and after a write request. -/
theorem empty_pdu_is_not_success_witness :
    att_read (demoEnv [Inbound.data []]) 0x0010 [9, 9] 2
        = some ⟨-2, [9, 9],
            afterRecv (afterSend (demoEnv [Inbound.data []]) [0x0A, 0x10, 0x00]) 24⟩
      ∧ att_wrreq (demoEnv [Inbound.data []]) 0x0010 [1, 2] 2
        = some ⟨-2,
            afterRecv (afterSend (demoEnv [Inbound.data []]) [0x12, 0x10, 0x00, 1, 2]) 24⟩ :=
  ⟨(empty_pdu_is_not_success (demoEnv [Inbound.data []]) 0x0010 [9, 9] [1, 2] 2 3 [] []
      rfl (by decide) rfl (by decide)).2.2.1,
    (empty_pdu_is_not_success (demoEnv [Inbound.data []]) 0x0010 [9, 9] [1, 2] 2 3 [] []
      rfl (by decide) rfl (by decide)).2.2.2.1⟩

end Bbatt
